import Mathlib

/-!
Verification of the Pickup Dispatch & Route Optimization Engine of the
smart-waste-bin backend.

The definitions below are a shallow embedding of the TypeScript sources:

* `src/services/pickupService.ts` (`PickupService`): pickup creation,
  priority derivation, scheduled-time offsets, status updates, cancellation,
  and the nearest-driver search;
* `src/services/pickupSchedulerService.ts` (`PickupSchedulerService`):
  the automatic pickup creation pass;
* `src/services/routeOptimizationService.ts` (`RouteOptimizationService`):
  the nearest-neighbor fallback optimizer and the bulk driver reassignment;
* `src/services/realtimeBinService.ts` (`DriverService.getNearbyDrivers`):
  the within-radius driver query.

Numbers: the store keeps coordinates and fill levels as decimals and the
services compute with JavaScript numbers; we embed both as `ℚ`.  Timestamps
are milliseconds since the epoch, embedded as `ℤ` (`Int`).

The great-circle distance helper (`calculateDistance`, a floating-point
haversine built from `Math.sin`, `Math.cos`, `Math.atan2`, `Math.sqrt`) is
transcendental and cannot be embedded exactly over `ℚ`; every definition
that calls it is therefore parametrised by a distance function
`dist : ℚ → ℚ → ℚ → ℚ → ℚ` taking `lat1 lng1 lat2 lng2`, exactly the call
shape of the source helper.  Theorems that need a metric fact about the
haversine (it is nonnegative, being `R * atan2 (sqrt a) (sqrt (1 - a))`
with `sqrt a ≥ 0` and `R > 0`) take that fact as an explicit hypothesis.
-/

namespace SmartWaste

/-- Pickup lifecycle status (the Prisma `PickupStatus` enum). -/
inductive PickupStatus
  | SCHEDULED
  | IN_PROGRESS
  | COMPLETED
  | CANCELLED
deriving DecidableEq, Repr

/-- Pickup priority (the `LOW | MEDIUM | HIGH | URGENT` union in `src/types/pickup.ts`). -/
inductive Priority
  | LOW
  | MEDIUM
  | HIGH
  | URGENT
deriving DecidableEq, Repr

/-- Bin status (the Prisma `BinStatus` enum used in `bin.status`). -/
inductive BinStatus
  | EMPTY
  | LOW
  | MEDIUM
  | HIGH
  | FULL
  | MAINTENANCE
  | OUT_OF_SERVICE
deriving DecidableEq, Repr

/-- Driver live status (the Prisma `DriverStatus` enum). -/
inductive DriverStatus
  | OFFLINE
  | ONLINE
  | BUSY
  | ON_BREAK
deriving DecidableEq, Repr

/-- Requesting-user role (the Prisma `UserRole` enum). -/
inductive UserRole
  | USER
  | DRIVER
  | ADMIN
deriving DecidableEq, Repr

/-- Route overall status (`PLANNED | IN_PROGRESS | COMPLETED`). -/
inductive RouteStatus
  | PLANNED
  | IN_PROGRESS
  | COMPLETED
deriving DecidableEq, Repr

/-- The `AppError` shape thrown by the services: a message plus an HTTP
status code (404 `NotFound`, 403 `Forbidden`, 400 `InvalidState` or
validation failure). -/
structure AppError where
  message : String
  statusCode : Nat
deriving DecidableEq, Repr

/-- A container ("bin") record.  Modelled from the spec: the Prisma schema
file itself is not under `src/`; section 3 of the spec gives the Container
fields, which match every field access made by the services under `src/`
(`currentLevel`, `status`, `lastEmptied`, `isActive`, `latitude`,
`longitude`, `userId`, `binCode`, `location`). -/
structure Bin where
  id : Nat
  binCode : String
  location : String
  latitude : ℚ
  longitude : ℚ
  currentLevel : ℚ
  status : BinStatus
  lastEmptied : Option Int
  isActive : Bool
  userId : Option String
deriving DecidableEq, Repr

/-- A driver record.  `userIsActive` embeds the joined `driver.user.isActive`
flag the services read through the `user` relation; `userId` is the owning
user account (the services look drivers up by it for the DRIVER role). -/
structure Driver where
  id : Nat
  userId : String
  status : DriverStatus
  isAvailable : Bool
  userIsActive : Bool
  currentLatitude : Option ℚ
  currentLongitude : Option ℚ
deriving DecidableEq, Repr

/-- A pickup record.  Modelled from the spec for the one field the schema
file would pin down: the Prisma schema is not under `src/`, and spec
section 3 gives Pickup a `priority` field (the overdue-escalation pass in
`pickupSchedulerService.ts` writes it, and `createPickup` returns the
derived priority in its response); we record the derived priority on the
created record.  All remaining fields match the accesses made under `src/`. -/
structure Pickup where
  id : Nat
  binId : Nat
  driverId : Option Nat
  createdById : String
  status : PickupStatus
  priority : Priority
  scheduledAt : Int
  startedAt : Option Int
  completedAt : Option Int
  notes : Option String
deriving DecidableEq, Repr

/-- A route record created by one optimization run
(`routeOptimizationService.ts`, `prisma.route.create`).  The locale-dependent
`routeName` string is omitted. -/
structure Route where
  id : Nat
  driverId : Nat
  totalDistance : ℚ
  estimatedDuration : ℤ
  status : RouteStatus
  completedAt : Option Int
deriving DecidableEq, Repr

/-- A route stop record (`prisma.routeStop.create`).  Estimated arrivals are
kept as exact rationals (milliseconds); the source stores them as `Date`
values computed from the same arithmetic. -/
structure RouteStop where
  id : Nat
  routeId : Nat
  binId : Nat
  stopOrder : Nat
  estimatedArrival : ℚ
  actualArrival : Option Int
  status : PickupStatus
deriving DecidableEq, Repr

/-- The shared datastore the services read and write: one list per table,
plus fresh-id counters standing in for generated primary keys. -/
structure DB where
  bins : List Bin
  drivers : List Driver
  pickups : List Pickup
  routes : List Route
  routeStops : List RouteStop
  nextPickupId : Nat
  nextRouteId : Nat
  nextRouteStopId : Nat
deriving DecidableEq, Repr

/-- `CreatePickupRequest` from `src/types/pickup.ts`. -/
structure CreatePickupRequest where
  binId : Nat
  driverId : Option Nat
  scheduledAt : Option Int
  priority : Option Priority
  notes : Option String
  pickupType : Option String
deriving DecidableEq, Repr

/-- `PickupStatusUpdate` from `src/types/pickup.ts` (the optional location
payload is never read by `updatePickupStatus` and is omitted). -/
structure PickupStatusUpdate where
  status : PickupStatus
  notes : Option String
deriving DecidableEq, Repr

/-- `NearbyDriversQuery`: query for `DriverService.getNearbyDrivers`. -/
structure NearbyDriversQuery where
  latitude : ℚ
  longitude : ℚ
  radius : Option ℚ
  limit : Option Nat
  status : Option DriverStatus
deriving DecidableEq, Repr

/-- `PickupRouteOptimization` from `src/types/pickup.ts`. -/
structure RouteOptRequest where
  driverId : Nat
  pickupIds : List Nat
  startLocation : Option (ℚ × ℚ)
deriving DecidableEq, Repr

/-- Abstract stand-in for `calculateDistance(lat1, lng1, lat2, lng2)`, the
floating-point haversine helper (see the file comment). -/
abbrev GeoDistance := ℚ → ℚ → ℚ → ℚ → ℚ

/-- `PickupService.calculateScheduledTime`: scheduled time is now plus a
priority-dependent offset (30 min, 2 h, 4 h, 24 h, in milliseconds).  The
source has a defensive `default` branch returning the 4 h offset for
strings outside the enum; it is unreachable once the priority is one of the
four enum values and is therefore absent here. -/
def calculateScheduledTime (now : Int) (priority : Priority) : Int :=
  match priority with
  | .URGENT => now + 30 * 60 * 1000
  | .HIGH => now + 2 * 60 * 60 * 1000
  | .MEDIUM => now + 4 * 60 * 60 * 1000
  | .LOW => now + 24 * 60 * 60 * 1000

/-- The driver filter of `PickupService.findBestAvailableDriver`:
`status = ONLINE`, `isAvailable = true`, both coordinates non-null, and the
joined user account active. -/
def eligibleDriver (d : Driver) : Bool :=
  d.status == .ONLINE && d.isAvailable && d.userIsActive &&
    d.currentLatitude.isSome && d.currentLongitude.isSome

/-- Distance from a query point to a driver, `Number(...)` conversions
included (`getD 0` is only reached for drivers with unknown location, which
every caller filters out first). -/
def driverDistance (dist : GeoDistance) (lat lng : ℚ) (d : Driver) : ℚ :=
  dist lat lng (d.currentLatitude.getD 0) (d.currentLongitude.getD 0)

/-- `PickupService.findBestAvailableDriver`: filter the eligible drivers,
then scan keeping the closest seen so far (strict comparison, so ties keep
the earlier driver); `none` when no driver is eligible. -/
def findBestAvailableDriver (dist : GeoDistance) (drivers : List Driver)
    (binLat binLng : ℚ) : Option Nat :=
  let availableDrivers := drivers.filter eligibleDriver
  match availableDrivers with
  | [] => none
  | d :: rest =>
    some (rest.foldl
      (fun closest dr =>
        if driverDistance dist binLat binLng dr < driverDistance dist binLat binLng closest
        then dr else closest) d).id

/-- `PickupService.createPickup`.  Looks up the bin (404), checks ownership
for the USER role (403), validates an explicitly supplied driver (400),
auto-assigns a driver when none is given and the bin is at least 80% full,
derives the priority from the fill level, defaults the scheduled time from
the derived priority, and inserts a new SCHEDULED pickup.  Returns the new
store and the created pickup (the response record). -/
def createPickup (dist : GeoDistance) (data : CreatePickupRequest)
    (requestUserRole : UserRole) (requestUserId : String) (now : Int)
    (db : DB) : Except AppError (DB × Pickup) :=
  match db.bins.find? (fun b => b.id == data.binId) with
  | none => .error ⟨"Bin not found", 404⟩
  | some bin =>
    if requestUserRole == .USER && bin.userId != some requestUserId then
      .error ⟨"You can only create pickups for your own bins", 403⟩
    else
      let driverCheck : Except AppError Unit :=
        match data.driverId with
        | none => .ok ()
        | some did =>
          match db.drivers.find? (fun d => d.id == did) with
          | none => .error ⟨"Driver not found or not available", 400⟩
          | some driver =>
            if !driver.userIsActive || !driver.isAvailable then
              .error ⟨"Driver not found or not available", 400⟩
            else .ok ()
      match driverCheck with
      | .error e => .error e
      | .ok _ =>
        let currentLevel := bin.currentLevel
        let assignedDriverId : Option Nat :=
          match data.driverId with
          | some did => some did
          | none =>
            if 80 ≤ currentLevel then
              findBestAvailableDriver dist db.drivers bin.latitude bin.longitude
            else none
        let priority : Priority :=
          if 95 ≤ currentLevel then .URGENT
          else if 85 ≤ currentLevel then .HIGH
          else data.priority.getD .MEDIUM
        let pickup : Pickup :=
          { id := db.nextPickupId
            binId := data.binId
            driverId := assignedDriverId
            createdById := requestUserId
            status := .SCHEDULED
            priority := priority
            scheduledAt := data.scheduledAt.getD (calculateScheduledTime now priority)
            startedAt := none
            completedAt := none
            notes := data.notes }
        .ok ({ db with
                pickups := db.pickups ++ [pickup]
                nextPickupId := db.nextPickupId + 1 }, pickup)

/-- `PickupService.getPickupById`: existence (404) and permission (403)
checks, returning the pickup record. -/
def getPickupById (pickupId : Nat) (requestUserRole : UserRole)
    (requestUserId : String) (db : DB) : Except AppError Pickup :=
  match db.pickups.find? (fun p => p.id == pickupId) with
  | none => .error ⟨"Pickup not found", 404⟩
  | some pickup =>
    if requestUserRole == .USER && pickup.createdById != requestUserId then
      .error ⟨"Access denied", 403⟩
    else if requestUserRole == .DRIVER then
      match db.drivers.find? (fun d => d.userId == requestUserId) with
      | none => .error ⟨"Access denied", 403⟩
      | some driver =>
        if pickup.driverId != some driver.id then .error ⟨"Access denied", 403⟩
        else .ok pickup
    else .ok pickup

/-- The update payload `updatePickupStatus` hands to `prisma.pickup.update`.
A `none` in an optional field models a field left out of the payload, which
the store skips (the record keeps its old value). -/
structure PickupWriteData where
  status : PickupStatus
  notes : Option String
  startedAt : Option Int
  completedAt : Option Int
deriving DecidableEq, Repr

/-- One primitive datastore write issued by `updatePickupStatus`.  The
source issues these as separate sequential `await`s with no surrounding
transaction, so each write is an observable step. -/
inductive DBWrite
  | binReset (binId : Nat) (now : Int)
  | pickupWrite (pickupId : Nat) (upd : PickupWriteData)
deriving DecidableEq, Repr

/-- `PickupService.updatePickupStatus`, returned as the exact sequence of
datastore writes the source issues (in source order: on first completion the
bin reset comes first, then the pickup update).  There is no check of the
current status: the requested status is always written when the pickup
exists and the permission check passes. -/
def updatePickupStatus (pickupId : Nat) (statusData : PickupStatusUpdate)
    (requestUserRole : UserRole) (requestUserId : String) (now : Int)
    (db : DB) : Except AppError (List DBWrite) :=
  match getPickupById pickupId requestUserRole requestUserId db with
  | .error e => .error e
  | .ok existingPickup =>
    if statusData.status == .IN_PROGRESS && existingPickup.startedAt == none then
      .ok [.pickupWrite pickupId ⟨statusData.status, statusData.notes, some now, none⟩]
    else if statusData.status == .COMPLETED && existingPickup.completedAt == none then
      .ok [.binReset existingPickup.binId now,
           .pickupWrite pickupId ⟨statusData.status, statusData.notes, none, some now⟩]
    else
      .ok [.pickupWrite pickupId ⟨statusData.status, statusData.notes, none, none⟩]

/-- Apply one pickup-update payload to a pickup record (skipped fields keep
their old values, matching the store semantics for absent fields). -/
def applyPickupWrite (p : Pickup) (u : PickupWriteData) : Pickup :=
  { p with
    status := u.status
    notes := match u.notes with | some s => some s | none => p.notes
    startedAt := match u.startedAt with | some t => some t | none => p.startedAt
    completedAt := match u.completedAt with | some t => some t | none => p.completedAt }

/-- Apply one primitive write to the store.  The bin reset is
`currentLevel := 0, status := EMPTY, lastEmptied := now`. -/
def applyWrite (db : DB) : DBWrite → DB
  | .binReset bid now =>
    { db with bins := db.bins.map (fun b =>
        if b.id == bid then
          { b with currentLevel := 0, status := .EMPTY, lastEmptied := some now }
        else b) }
  | .pickupWrite pid u =>
    { db with pickups := db.pickups.map (fun p =>
        if p.id == pid then applyPickupWrite p u else p) }

/-- Apply a write sequence left to right. -/
def applyWrites (db : DB) (ws : List DBWrite) : DB :=
  ws.foldl applyWrite db

/-- `updatePickupStatus` run to completion: the final store. -/
def runUpdatePickupStatus (pickupId : Nat) (statusData : PickupStatusUpdate)
    (requestUserRole : UserRole) (requestUserId : String) (now : Int)
    (db : DB) : Except AppError DB :=
  (updatePickupStatus pickupId statusData requestUserRole requestUserId now db).map
    (applyWrites db)

/-- `PickupService.cancelPickup`: permission checks via `getPickupById`,
reject only an already COMPLETED pickup (400), otherwise set status
CANCELLED and overwrite notes with the reason. -/
def cancelPickup (pickupId : Nat) (reason : String)
    (requestUserRole : UserRole) (requestUserId : String) (db : DB) :
    Except AppError DB :=
  match getPickupById pickupId requestUserRole requestUserId db with
  | .error e => .error e
  | .ok existingPickup =>
    if existingPickup.status == .COMPLETED then
      .error ⟨"Cannot cancel completed pickup", 400⟩
    else
      .ok { db with pickups := db.pickups.map (fun p =>
              if p.id == pickupId then
                { p with status := .CANCELLED, notes := some reason }
              else p) }

/-- The notes string the scheduler writes on automatic pickups. -/
def autoNote (currentLevel : ℚ) : String :=
  "Automatic pickup - bin " ++ toString currentLevel ++ "% full"

/-- Whether a bin has a pickup in a non-terminal status (the `pickups: none`
sub-query of the scheduler, negated). -/
def hasActivePickup (db : DB) (binId : Nat) : Bool :=
  db.pickups.any (fun p =>
    p.binId == binId && (p.status == .SCHEDULED || p.status == .IN_PROGRESS))

/-- The scheduler bin query: fill level at least 80, active, and no pickup
in SCHEDULED or IN_PROGRESS status. -/
def binNeedsPickup (db : DB) (b : Bin) : Bool :=
  decide (80 ≤ b.currentLevel) && b.isActive && !(hasActivePickup db b.id)

/-- The priority the scheduler passes to `createPickup`: initialised to
HIGH, raised to URGENT at level 95, re-set to HIGH at level 90 (so HIGH for
everything below 95 — the 90 branch is kept to mirror the source). -/
def schedulerPriority (level : ℚ) : Priority :=
  if 95 ≤ level then .URGENT
  else if 90 ≤ level then .HIGH
  else .HIGH

/-- The create request the scheduler builds for one qualifying bin: no
explicit driver or scheduled time, the scheduler priority, the
automatic-origin notes, and pickup type SCHEDULED. -/
def autoReq (bin : Bin) : CreatePickupRequest :=
  { binId := bin.id, driverId := none, scheduledAt := none
    priority := some (schedulerPriority bin.currentLevel)
    notes := some (autoNote bin.currentLevel)
    pickupType := some "SCHEDULED" }

/-- `PickupSchedulerService.checkAndCreateAutomaticPickups`: one auto-create
pass.  The qualifying bins are queried once up front; each then gets one
`createPickup` call with role ADMIN, creator the bin owner or "system", the
scheduler priority and the automatic-origin notes.  A failure for one bin is
logged and does not abort the batch (the `.error` arm keeps the store). -/
def checkAndCreateAutomaticPickups (dist : GeoDistance) (now : Int) (db : DB) : DB :=
  let fullBins := db.bins.filter (binNeedsPickup db)
  fullBins.foldl
    (fun acc bin =>
      match createPickup dist (autoReq bin) .ADMIN (bin.userId.getD "system") now acc with
      | .ok (db2, _) => db2
      | .error _ => acc)
    db

/-- `Math.round(x * 100) / 100`, the two-decimal rounding the driver query
applies to each computed distance before filtering and sorting.
`Math.round(y)` is `⌊y + 1/2⌋`, which is exactly Mathlib `round` on `ℚ`. -/
def round2 (x : ℚ) : ℚ :=
  ((round (x * 100) : ℤ) : ℚ) / 100

/-- `DriverService.getNearbyDrivers` (`realtimeBinService.ts`).  Pipeline,
in source order: availability / active-account / status filter plus the
bounding-box pre-filter pushed into the store query (a range predicate never
matches a null coordinate), `take limit` at the query, a redundant non-null
coordinate re-check, the exact distance computation rounded to two decimals,
the `distance ≤ radius` post-filter, and a stable ascending sort on the
rounded distance (the JavaScript numeric-comparator `.sort` is stable;
modelled by the stable insertion sort).  `cosLat` is the floating-point `Math.cos(latitude·π/180)`
of the query latitude, passed in abstractly like `dist`. -/
def getNearbyDrivers (dist : GeoDistance) (cosLat : ℚ) (q : NearbyDriversQuery)
    (drivers : List Driver) : List (Driver × ℚ) :=
  let radius := q.radius.getD 10
  let limit := q.limit.getD 20
  let wantStatus := q.status.getD .ONLINE
  let latOk : Driver → Bool := fun d =>
    match d.currentLatitude with
    | none => false
    | some la =>
      decide (q.latitude - radius / 111 ≤ la) && decide (la ≤ q.latitude + radius / 111)
  let lngOk : Driver → Bool := fun d =>
    match d.currentLongitude with
    | none => false
    | some lo =>
      decide (q.longitude - radius / (111 * cosLat) ≤ lo) &&
        decide (lo ≤ q.longitude + radius / (111 * cosLat))
  let fetched := (drivers.filter (fun d =>
    d.isAvailable && d.userIsActive && d.status == wantStatus && latOk d && lngOk d)).take limit
  let withDist := (fetched.filter (fun d =>
      d.currentLatitude.isSome && d.currentLongitude.isSome)).map
    (fun d => (d, round2 (dist q.latitude q.longitude
        (d.currentLatitude.getD 0) (d.currentLongitude.getD 0))))
  let inRadius := withDist.filter (fun x => decide (x.2 ≤ radius))
  inRadius.insertionSort (fun a b => a.2 ≤ b.2)

/-- One stop candidate handed to the route optimizer: a pickup id and the
coordinates of its bin. -/
structure StopPoint where
  pickupId : Nat
  binId : Nat
  latitude : ℚ
  longitude : ℚ
deriving DecidableEq, Repr

/-- Distance from a current position to a stop. -/
def stopDistance (dist : GeoDistance) (lat lng : ℚ) (p : StopPoint) : ℚ :=
  dist lat lng p.latitude p.longitude

/-- One selection step of the nearest-neighbor loop: scan the candidates
keeping the first stop of strictly smallest distance (the source scans
indices with a strict comparison, then splices the winner out); returns the
winner and the remaining stops in their original relative order. -/
def selectNearest (dist : GeoDistance) (lat lng : ℚ) :
    StopPoint → List StopPoint → StopPoint × List StopPoint
  | best, [] => (best, [])
  | best, y :: ys =>
    if stopDistance dist lat lng y < stopDistance dist lat lng best then
      let s := selectNearest dist lat lng y ys
      (s.1, best :: s.2)
    else
      let s := selectNearest dist lat lng best ys
      (s.1, y :: s.2)

/-- The nearest-neighbor while-loop, fuel-indexed by the number of remaining
stops (each iteration removes exactly one stop, so `l.length` fuel runs the
loop to exhaustion; the permutation theorem below certifies that nothing is
dropped). -/
def nnLoop (dist : GeoDistance) : Nat → ℚ → ℚ → List StopPoint → List StopPoint
  | 0, _, _, _ => []
  | _ + 1, _, _, [] => []
  | n + 1, lat, lng, x :: xs =>
    let s := selectNearest dist lat lng x xs
    s.1 :: nnLoop dist n s.1.latitude s.1.longitude s.2

/-- `RouteOptimizationService.nearestNeighborOptimization`: starting from
the current position, repeatedly move to the unvisited stop of minimum
distance until none remain. -/
def nearestNeighborOptimization (dist : GeoDistance) (lat lng : ℚ)
    (pickups : List StopPoint) : List StopPoint :=
  nnLoop dist pickups.length lat lng pickups

/-- The fallback total-distance loop: the sum of the consecutive legs from
the start position through the optimized sequence. -/
def routeDistance (dist : GeoDistance) : ℚ → ℚ → List StopPoint → ℚ
  | _, _, [] => 0
  | lat, lng, x :: xs => stopDistance dist lat lng x + routeDistance dist x.latitude x.longitude xs

/-- The list of consecutive leg distances of a stop sequence (start position
first), for stating that the total is their sum. -/
def legDistances (dist : GeoDistance) : ℚ → ℚ → List StopPoint → List ℚ
  | _, _, [] => []
  | lat, lng, x :: xs => stopDistance dist lat lng x :: legDistances dist x.latitude x.longitude xs

/-- A stop sequence obeys the nearest-neighbor rule from a given position:
each stop is at minimum distance from the current position among it and all
later (still unvisited) stops, and the rest of the sequence obeys the rule
from that stop. -/
def IsNNOrder (dist : GeoDistance) : ℚ → ℚ → List StopPoint → Prop
  | _, _, [] => True
  | lat, lng, x :: xs =>
    (∀ y ∈ x :: xs, stopDistance dist lat lng x ≤ stopDistance dist lat lng y) ∧
      IsNNOrder dist x.latitude x.longitude xs

/-- Per-stop estimated arrivals after the first stop: each later stop adds
the leg travel time at 30 km/h (in minutes) plus the 5-minute service
allowance, converted to milliseconds. -/
def arrivalWalk (dist : GeoDistance) : ℚ → StopPoint → List StopPoint → List ℚ
  | _, _, [] => []
  | t, prev, y :: ys =>
    let t2 := t + (stopDistance dist prev.latitude prev.longitude y / 30 * 60 + 5) * 60 * 1000
    t2 :: arrivalWalk dist t2 y ys

/-- Estimated arrival times for an optimized sequence, starting from now
(the first stop is stamped with the current time, the source adds travel
time only from the second stop on). -/
def arrivalTimes (dist : GeoDistance) (now : ℚ) : List StopPoint → List ℚ
  | [] => []
  | x :: xs => now :: arrivalWalk dist now x xs

/-- One stop of the optimization response payload. -/
structure OptimizedStop where
  pickupId : Nat
  order : Nat
  estimatedArrival : ℚ
  binId : Nat
deriving DecidableEq, Repr

/-- The optimization response payload (`OptimizedRoute` in
`src/types/pickup.ts`). -/
structure OptimizedRouteResult where
  routeId : Nat
  driverId : Nat
  totalDistance : ℚ
  estimatedDuration : ℤ
  stops : List OptimizedStop
deriving DecidableEq, Repr

/-- `RouteOptimizationService.optimizePickupRoute`, modelling the execution
in which the external mapping call fails and the catch branch runs the
nearest-neighbor fallback (spec section 4.3: an `ExternalServiceFailure` is
always recovered locally).  The closing bulk reassignment
(`prisma.pickup.updateMany` over `data.pickupIds`) sits after the try/catch
in the source and is identical on both paths.  Steps: driver lookup (404),
resolve the requested ids to SCHEDULED pickups, reject an empty resolution
(400), default the start position to the driver location (or the Freetown
fallback coordinates), run the nearest-neighbor heuristic, accumulate
distance and duration, persist the route and its stops, and set every
requested pickup id driver reference to the given driver.  Stops join each
pickup to its bin through the required foreign key (a dangling `binId`
cannot occur in a consistent store). -/
def optimizePickupRoute (dist : GeoDistance) (data : RouteOptRequest)
    (now : Int) (db : DB) : Except AppError (DB × OptimizedRouteResult) :=
  match db.drivers.find? (fun d => d.id == data.driverId) with
  | none => .error ⟨"Driver not found", 404⟩
  | some driver =>
    let pickups := db.pickups.filter (fun p =>
      data.pickupIds.contains p.id && p.status == .SCHEDULED)
    if pickups.isEmpty then
      .error ⟨"No valid pickups found for optimization", 400⟩
    else
      let startLat := match data.startLocation with
        | some s => s.1
        | none => driver.currentLatitude.getD (8.4840 : ℚ)
      let startLng := match data.startLocation with
        | some s => s.2
        | none => driver.currentLongitude.getD (-13.2299 : ℚ)
      let stops := pickups.filterMap (fun p =>
        (db.bins.find? (fun b => b.id == p.binId)).map
          (fun b => StopPoint.mk p.id b.id b.latitude b.longitude))
      let optimized := nearestNeighborOptimization dist startLat startLng stops
      let totalDistance := routeDistance dist startLat startLng optimized
      let travelTimeMinutes := totalDistance / 30 * 60
      let pickupTimeMinutes := (optimized.length : ℚ) * 5
      let estimatedDuration : ℤ := round (travelTimeMinutes + pickupTimeMinutes)
      let route : Route :=
        { id := db.nextRouteId, driverId := data.driverId
          totalDistance := totalDistance, estimatedDuration := estimatedDuration
          status := .PLANNED, completedAt := none }
      let arrivals := arrivalTimes dist (now : ℚ) optimized
      let newStops := (optimized.zip arrivals).enum.map (fun e =>
        RouteStop.mk (db.nextRouteStopId + e.1) db.nextRouteId e.2.1.binId
          (e.1 + 1) e.2.2 none .SCHEDULED)
      let stopsOut := (optimized.zip arrivals).enum.map (fun e =>
        OptimizedStop.mk e.2.1.pickupId (e.1 + 1) e.2.2 e.2.1.binId)
      let newPickups := db.pickups.map (fun p =>
        if data.pickupIds.contains p.id then { p with driverId := some data.driverId }
        else p)
      .ok ({ db with
              routes := db.routes ++ [route]
              routeStops := db.routeStops ++ newStops
              pickups := newPickups
              nextRouteId := db.nextRouteId + 1
              nextRouteStopId := db.nextRouteStopId + newStops.length },
           { routeId := db.nextRouteId, driverId := data.driverId
             totalDistance := round2 totalDistance
             estimatedDuration := estimatedDuration, stops := stopsOut })

/-! Concrete example inputs used by witnesses and counterexamples. -/

/-- Whether an `Except` result is a success. -/
def isOkE {ε α : Type _} : Except ε α → Bool
  | .ok _ => true
  | .error _ => false

/-- A constant-zero distance function: one concrete instantiation of the
abstract haversine parameter. -/
def distZero : GeoDistance := fun _ _ _ _ => 0

/-- A taxicab-style distance on coordinates: a nonnegative concrete
instantiation of the abstract haversine parameter. -/
def distAbs : GeoDistance := fun lat1 lng1 lat2 lng2 => |lat2 - lat1| + |lng2 - lng1|

/-- An active bin with a given id and fill level. -/
def binAt (i : Nat) (level : ℚ) : Bin :=
  { id := i, binCode := "B", location := "L", latitude := 8, longitude := -13
    currentLevel := level, status := .HIGH, lastEmptied := none, isActive := true
    userId := some "owner" }

/-- Store with bins at fill levels 96, 86 and 50. -/
def dbLevels : DB :=
  { bins := [binAt 1 96, binAt 2 86, binAt 3 50], drivers := [], pickups := []
    routes := [], routeStops := [], nextPickupId := 10, nextRouteId := 0
    nextRouteStopId := 0 }

/-- A create request for a given bin with a given explicit priority. -/
def reqBin (i : Nat) (pr : Option Priority) : CreatePickupRequest :=
  { binId := i, driverId := none, scheduledAt := none, priority := pr
    notes := none, pickupType := none }

/-- Decidable equality for `Except` results, used to evaluate concrete runs. -/
instance {ε α : Type _} [DecidableEq ε] [DecidableEq α] : DecidableEq (Except ε α) := fun a b =>
  match a, b with
  | .ok x, .ok y =>
    if h : x = y then .isTrue (by rw [h]) else .isFalse (by intro he; cases he; exact h rfl)
  | .error x, .error y =>
    if h : x = y then .isTrue (by rw [h]) else .isFalse (by intro he; cases he; exact h rfl)
  | .ok _, .error _ => .isFalse (by intro he; cases he)
  | .error _, .ok _ => .isFalse (by intro he; cases he)

/-- A pickup with the given id, bin, status and timestamps. -/
def pickupAt (i b : Nat) (st : PickupStatus) (sAt cAt : Option Int) : Pickup :=
  { id := i, binId := b, driverId := none, createdById := "creator"
    status := st, priority := .MEDIUM, scheduledAt := 0
    startedAt := sAt, completedAt := cAt, notes := none }

/-- Store with one COMPLETED and one CANCELLED pickup (both terminal). -/
def dbTerminal : DB :=
  { bins := [binAt 10 50], drivers := []
    pickups := [pickupAt 1 10 .COMPLETED (some 5) (some 9), pickupAt 2 10 .CANCELLED none none]
    routes := [], routeStops := [], nextPickupId := 3, nextRouteId := 0, nextRouteStopId := 0 }

/-- Store with one FULL bin and one IN_PROGRESS pickup on it (started but
not yet completed). -/
def dbInProgress : DB :=
  { bins := [{ binAt 1 90 with status := .FULL }], drivers := []
    pickups := [pickupAt 7 1 .IN_PROGRESS (some 5) none]
    routes := [], routeStops := [], nextPickupId := 8, nextRouteId := 0, nextRouteStopId := 0 }

/-- A distance function reading off the target latitude only: a concrete
instantiation used to pick out drivers by position in evaluations. -/
def distLat : GeoDistance := fun _ _ lat2 _ => lat2

/-- A driver with the given id, status, availability and location. -/
def drvW (i : Nat) (st : DriverStatus) (avail : Bool) (la lo : ℚ) : Driver :=
  { id := i, userId := "du", status := st, isAvailable := avail
    userIsActive := true, currentLatitude := some la, currentLongitude := some lo }

/-- Three drivers: two eligible (at latitudes 5 and 1) and one OFFLINE. -/
def driversNear : List Driver :=
  [drvW 1 .ONLINE true 5 5, drvW 2 .ONLINE true 1 1, drvW 3 .OFFLINE true 0 0]

/-- Store with a single active bin at exactly the 80% threshold. -/
def dbC3 : DB :=
  { bins := [binAt 1 80], drivers := [], pickups := [], routes := []
    routeStops := [], nextPickupId := 0, nextRouteId := 0, nextRouteStopId := 0 }

/-- Store for the auto-create pass: bins at 80 and 96 qualify, the bin at
50 is below the threshold, and the bin at 90 already has a SCHEDULED
pickup. -/
def dbScheduler : DB :=
  { bins := [binAt 1 80, binAt 2 96, binAt 3 50, binAt 4 90], drivers := []
    pickups := [pickupAt 1 4 .SCHEDULED none none], routes := []
    routeStops := [], nextPickupId := 2, nextRouteId := 0, nextRouteStopId := 0 }

/-- A nearby-drivers query at the origin with all defaults (radius 10 km,
limit 20, status ONLINE). -/
def q7 : NearbyDriversQuery :=
  { latitude := 0, longitude := 0, radius := none, limit := none, status := none }

/-- A constant distance of 10.004 km: rounded to two decimals it is 10.00,
inside a 10 km radius, while the unrounded value exceeds it. -/
def dist7cex : GeoDistance := fun _ _ _ _ => 2501 / 250

/-- Route-optimization request: driver 5, pickup ids 1 and 2, explicit
start at the origin. -/
def reqC10 : RouteOptRequest :=
  { driverId := 5, pickupIds := [1, 2], startLocation := some (0, 0) }

/-- Store for route optimization: pickup 1 is SCHEDULED and requested,
pickup 2 is CANCELLED yet requested, pickup 3 is SCHEDULED but not
requested. -/
def dbC10 : DB :=
  { bins := [binAt 1 50, binAt 2 50], drivers := [drvW 5 .ONLINE true 0 0]
    pickups := [pickupAt 1 1 .SCHEDULED none none, pickupAt 2 2 .CANCELLED none none,
                pickupAt 3 1 .SCHEDULED none none]
    routes := [], routeStops := [], nextPickupId := 4, nextRouteId := 0, nextRouteStopId := 0 }

end SmartWaste

namespace SmartWaste

/-- C5: for every create-pickup call on a container with fill level L that
returns a created pickup, the resulting priority is URGENT when 95 ≤ L,
else HIGH when 85 ≤ L, else the requester-supplied priority (MEDIUM when
none is supplied). -/
theorem c5_priority_derivation (dist : GeoDistance) (data : CreatePickupRequest)
    (role : UserRole) (uid : String) (now : Int) (db : DB) (bin : Bin)
    (hbin : db.bins.find? (fun b => b.id == data.binId) = some bin)
    (hok : isOkE (createPickup dist data role uid now db) = true) :
    (createPickup dist data role uid now db).map (fun r => r.2.priority) =
      .ok (if 95 ≤ bin.currentLevel then Priority.URGENT
           else if 85 ≤ bin.currentLevel then Priority.HIGH
           else data.priority.getD .MEDIUM) := by
  simp only [createPickup, hbin] at hok ⊢
  split
  · next h => rw [if_pos h] at hok; simp [isOkE] at hok
  · next h =>
    rw [if_neg h] at hok
    split
    · next e heq => rw [heq] at hok; simp [isOkE] at hok
    · next a heq => simp [Except.map]

/-- C5 witness: fill levels 96, 86, 50 with no explicit priority yield
URGENT, HIGH, MEDIUM. -/
theorem c5_priority_derivation_witness :
    (createPickup distZero (reqBin 1 none) .ADMIN "u" 0 dbLevels).map (fun r => r.2.priority) = .ok .URGENT ∧
    (createPickup distZero (reqBin 2 none) .ADMIN "u" 0 dbLevels).map (fun r => r.2.priority) = .ok .HIGH ∧
    (createPickup distZero (reqBin 3 none) .ADMIN "u" 0 dbLevels).map (fun r => r.2.priority) = .ok .MEDIUM := by
  refine ⟨?_, ?_, ?_⟩
  · exact (c5_priority_derivation distZero (reqBin 1 none) .ADMIN "u" 0 dbLevels
      (binAt 1 96) (by decide) (by decide)).trans (by rfl)
  · exact (c5_priority_derivation distZero (reqBin 2 none) .ADMIN "u" 0 dbLevels
      (binAt 2 86) (by decide) (by decide)).trans (by rfl)
  · exact (c5_priority_derivation distZero (reqBin 3 none) .ADMIN "u" 0 dbLevels
      (binAt 3 50) (by decide) (by decide)).trans (by rfl)

/-- C6: a pickup created without an explicit scheduled time is scheduled at
creation time plus the offset determined by the derived priority:
30 minutes for URGENT, 2 hours for HIGH, 4 hours for MEDIUM, 24 hours for
LOW (all in milliseconds). -/
theorem c6_scheduling_offset (dist : GeoDistance) (data : CreatePickupRequest)
    (role : UserRole) (uid : String) (now : Int) (db : DB) (bin : Bin)
    (hbin : db.bins.find? (fun b => b.id == data.binId) = some bin)
    (hs : data.scheduledAt = none)
    (hok : isOkE (createPickup dist data role uid now db) = true) :
    (createPickup dist data role uid now db).map (fun r => (r.2.priority, r.2.scheduledAt)) =
      .ok (let dp := if 95 ≤ bin.currentLevel then Priority.URGENT
                     else if 85 ≤ bin.currentLevel then Priority.HIGH
                     else data.priority.getD .MEDIUM
           (dp, now + match dp with
                | .URGENT => 30 * 60 * 1000
                | .HIGH => 2 * 60 * 60 * 1000
                | .MEDIUM => 4 * 60 * 60 * 1000
                | .LOW => 24 * 60 * 60 * 1000)) := by
  have hcalc : ∀ p : Priority, calculateScheduledTime now p =
      now + match p with
            | .URGENT => 30 * 60 * 1000
            | .HIGH => 2 * 60 * 60 * 1000
            | .MEDIUM => 4 * 60 * 60 * 1000
            | .LOW => 24 * 60 * 60 * 1000 := by
    intro p; cases p <;> rfl
  simp only [createPickup, hbin, hs] at hok ⊢
  split
  · next h => rw [if_pos h] at hok; simp [isOkE] at hok
  · next h =>
    rw [if_neg h] at hok
    split
    · next e heq => rw [heq] at hok; simp [isOkE] at hok
    · next a heq => simp [Except.map, hcalc]

/-- C6 witness: URGENT (level 96) schedules 30 minutes out; an explicit LOW
priority on a half-full bin schedules 24 hours out. -/
theorem c6_scheduling_offset_witness :
    (createPickup distZero (reqBin 1 none) .ADMIN "u" 0 dbLevels).map
        (fun r => (r.2.priority, r.2.scheduledAt)) = .ok (.URGENT, 30 * 60 * 1000) ∧
    (createPickup distZero (reqBin 3 (some .LOW)) .ADMIN "u" 0 dbLevels).map
        (fun r => (r.2.priority, r.2.scheduledAt)) = .ok (.LOW, 24 * 60 * 60 * 1000) := by
  constructor
  · exact (c6_scheduling_offset distZero (reqBin 1 none) .ADMIN "u" 0 dbLevels
      (binAt 1 96) (by decide) (by decide) (by decide)).trans (by rfl)
  · exact (c6_scheduling_offset distZero (reqBin 3 (some .LOW)) .ADMIN "u" 0 dbLevels
      (binAt 3 50) (by decide) (by decide) (by decide)).trans (by rfl)

/-- With the ADMIN role, `getPickupById` succeeds whenever the pickup
exists (the USER and DRIVER permission branches are skipped). -/
theorem getPickupById_admin (pid : Nat) (uid : String) (db : DB) (p : Pickup)
    (hp : db.pickups.find? (fun q => q.id == pid) = some p) :
    getPickupById pid .ADMIN uid db = .ok p := by
  unfold getPickupById
  rw [hp]
  rfl

/-- A bin reset does not touch the pickups table. -/
theorem applyWrite_binReset_pickups (db : DB) (b : Nat) (n : Int) :
    (applyWrite db (.binReset b n)).pickups = db.pickups := rfl

/-- After a pickup write, every pickup carrying the written id has the
written status. -/
theorem status_of_mem_pickupWrite (db : DB) (pid : Nat) (u : PickupWriteData)
    (q : Pickup) (hq : q ∈ (applyWrite db (.pickupWrite pid u)).pickups)
    (hid : q.id = pid) : q.status = u.status := by
  simp only [applyWrite, List.mem_map] at hq
  obtain ⟨r, hr, rfl⟩ := hq
  by_cases h : (r.id == pid) = true
  · rw [if_pos h]; rfl
  · rw [if_neg h] at hid ⊢
    exact absurd (beq_iff_eq.mpr hid) h

/-- When pickup ids are distinct, the pickup carrying the written id after
a pickup write is exactly the found pickup with the payload applied. -/
theorem eq_applyPickupWrite_of_mem (db : DB) (pid : Nat) (u : PickupWriteData)
    (p : Pickup) (hp : db.pickups.find? (fun q => q.id == pid) = some p)
    (hnd : (db.pickups.map Pickup.id).Nodup)
    (q : Pickup) (hq : q ∈ (applyWrite db (.pickupWrite pid u)).pickups)
    (hid : q.id = pid) : q = applyPickupWrite p u := by
  have hpmem : p ∈ db.pickups := List.mem_of_find?_eq_some hp
  have hpid0 := List.find?_some (p := fun (q : Pickup) => q.id == pid) hp
  have hpid : p.id = pid := beq_iff_eq.mp hpid0
  simp only [applyWrite, List.mem_map] at hq
  obtain ⟨r, hr, rfl⟩ := hq
  by_cases h : (r.id == pid) = true
  · rw [if_pos h]
    have hr_eq : r = p :=
      List.inj_on_of_nodup_map hnd hr hpmem ((beq_iff_eq.mp h).trans hpid.symm)
    rw [hr_eq]
  · rw [if_neg h] at hid
    exact absurd (beq_iff_eq.mpr hid) h

/-- C1: the status-update operation performs no transition validation: for
every pickup that exists (checked here under the ADMIN role, which passes
the permission check), a request for any target status — including from the
terminal states COMPLETED and CANCELLED — succeeds and writes the requested
status.  The only transition guard in the lifecycle is in cancellation,
which fails InvalidState exactly when the pickup is COMPLETED; cancelling
an already CANCELLED pickup succeeds. -/
theorem c1_no_transition_validation (pid : Nat) (upd : PickupStatusUpdate)
    (reason uid : String) (now : Int) (db : DB) (p : Pickup)
    (hp : db.pickups.find? (fun q => q.id == pid) = some p) :
    (∃ db2, runUpdatePickupStatus pid upd .ADMIN uid now db = .ok db2 ∧
        ∀ q ∈ db2.pickups, q.id = pid → q.status = upd.status) ∧
    (p.status = .COMPLETED →
      cancelPickup pid reason .ADMIN uid db =
        .error ⟨"Cannot cancel completed pickup", 400⟩) ∧
    (p.status ≠ .COMPLETED →
      ∃ db3, cancelPickup pid reason .ADMIN uid db = .ok db3 ∧
        ∀ q ∈ db3.pickups, q.id = pid → q.status = .CANCELLED) := by
  have hget := getPickupById_admin pid uid db p hp
  refine ⟨?_, ?_, ?_⟩
  · simp only [runUpdatePickupStatus, updatePickupStatus, hget]
    by_cases h1 : (upd.status == PickupStatus.IN_PROGRESS && p.startedAt == none) = true
    · rw [if_pos h1]
      exact ⟨_, rfl, fun q hq hid => status_of_mem_pickupWrite _ _ _ q hq hid⟩
    · rw [if_neg h1]
      by_cases h2 : (upd.status == PickupStatus.COMPLETED && p.completedAt == none) = true
      · rw [if_pos h2]
        refine ⟨_, rfl, fun q hq hid => ?_⟩
        have hq2 : q ∈ (applyWrite (applyWrite db (.binReset p.binId now))
            (.pickupWrite pid ⟨upd.status, upd.notes, none, some now⟩)).pickups := hq
        exact status_of_mem_pickupWrite _ _ _ q hq2 hid
      · rw [if_neg h2]
        exact ⟨_, rfl, fun q hq hid => status_of_mem_pickupWrite _ _ _ q hq hid⟩
  · intro hc
    simp only [cancelPickup, hget]
    rw [if_pos (by simp [hc])]
  · intro hc
    simp only [cancelPickup, hget]
    rw [if_neg (by simp [hc])]
    refine ⟨_, rfl, fun q hq hid => ?_⟩
    simp only [List.mem_map] at hq
    obtain ⟨r, hr, rfl⟩ := hq
    by_cases h : (r.id == pid) = true
    · rw [if_pos h]
    · rw [if_neg h] at hid ⊢
      exact absurd (beq_iff_eq.mpr hid) h

/-- C1 witness: in a store whose pickup 1 is COMPLETED, a status update to
SCHEDULED succeeds and writes SCHEDULED; cancelling pickup 1 fails with the
InvalidState error; pickup 2 (CANCELLED, hence not COMPLETED) can be
cancelled again successfully. -/
theorem c1_no_transition_validation_witness :
    ((∃ db2, runUpdatePickupStatus 1 ⟨.SCHEDULED, none⟩ .ADMIN "a" 50 dbTerminal = .ok db2 ∧
        ∀ q ∈ db2.pickups, q.id = 1 → q.status = .SCHEDULED) ∧
      ((pickupAt 1 10 .COMPLETED (some 5) (some 9)).status = .COMPLETED →
        cancelPickup 1 "r" .ADMIN "a" dbTerminal =
          .error ⟨"Cannot cancel completed pickup", 400⟩) ∧
      ((pickupAt 1 10 .COMPLETED (some 5) (some 9)).status ≠ .COMPLETED →
        ∃ db3, cancelPickup 1 "r" .ADMIN "a" dbTerminal = .ok db3 ∧
          ∀ q ∈ db3.pickups, q.id = 1 → q.status = .CANCELLED)) ∧
    (∃ db3, cancelPickup 2 "again" .ADMIN "a" dbTerminal = .ok db3 ∧
        ∀ q ∈ db3.pickups, q.id = 2 → q.status = .CANCELLED) :=
  ⟨c1_no_transition_validation 1 ⟨.SCHEDULED, none⟩ "r" "a" 50 dbTerminal
      (pickupAt 1 10 .COMPLETED (some 5) (some 9)) (by decide),
    (c1_no_transition_validation 2 ⟨.SCHEDULED, none⟩ "again" "a" 50 dbTerminal
      (pickupAt 2 10 .CANCELLED none none) (by decide)).2.2 (by decide)⟩

/-- C1 counterexample: pickup 1 of `dbTerminal` is COMPLETED (terminal),
yet requesting a transition to IN_PROGRESS does not fail InvalidState — it
succeeds and changes the pickup — and cancelling the already CANCELLED
pickup 2 also succeeds, contradicting the claim as stated. -/
theorem c1_terminal_transition_counterexample :
    dbTerminal.pickups.map (fun p => p.status) = [.COMPLETED, .CANCELLED] ∧
    (runUpdatePickupStatus 1 ⟨.IN_PROGRESS, none⟩ .ADMIN "a" 100 dbTerminal).map
        (fun d => d.pickups.map (fun p => p.status)) = .ok [.IN_PROGRESS, .CANCELLED] ∧
    (cancelPickup 2 "again" .ADMIN "a" dbTerminal).map
        (fun d => d.pickups.map (fun p => p.status)) = .ok [.COMPLETED, .CANCELLED] := by
  decide

/-- C2: completing a pickup resets its container, but the reset and the
pickup status write are two separate sequential writes with no surrounding
transaction, bin first: the state after the first write — shown here on a
concrete store — has the container already reset while the pickup is still
IN_PROGRESS, exactly the half-applied state the claim rules out.  The final
conjunct confirms the first-completion behavior itself (status COMPLETED,
completion time stamped). -/
theorem c2_completion_reset_not_atomic :
    updatePickupStatus 7 ⟨.COMPLETED, none⟩ .ADMIN "a" 1000 dbInProgress =
      .ok [.binReset 1 1000, .pickupWrite 7 ⟨.COMPLETED, none, none, some 1000⟩] ∧
    ((applyWrite dbInProgress (.binReset 1 1000)).bins.map
        (fun b => (b.currentLevel, b.status, b.lastEmptied))) = [(0, .EMPTY, some 1000)] ∧
    ((applyWrite dbInProgress (.binReset 1 1000)).pickups.map
        (fun p => p.status)) = [.IN_PROGRESS] ∧
    ((applyWrites dbInProgress
        [.binReset 1 1000, .pickupWrite 7 ⟨.COMPLETED, none, none, some 1000⟩]).pickups.map
        (fun p => (p.status, p.completedAt))) = [(.COMPLETED, some 1000)] := by
  decide

/-- C9: repeating a transition to IN_PROGRESS once the start time is
stamped, or to COMPLETED once the completion time is stamped, succeeds and
leaves both previously stamped timestamps unchanged (each timestamp is
written on the first occurrence of its status only). -/
theorem c9_idempotent_timestamps (pid : Nat) (nts : Option String)
    (uid : String) (now s t : Int) (db : DB) (p : Pickup)
    (hp : db.pickups.find? (fun q => q.id == pid) = some p)
    (hnd : (db.pickups.map Pickup.id).Nodup) :
    (p.startedAt = some s →
      ∃ db2, runUpdatePickupStatus pid ⟨.IN_PROGRESS, nts⟩ .ADMIN uid now db = .ok db2 ∧
        ∀ q ∈ db2.pickups, q.id = pid →
          q.startedAt = some s ∧ q.completedAt = p.completedAt) ∧
    (p.completedAt = some t →
      ∃ db2, runUpdatePickupStatus pid ⟨.COMPLETED, nts⟩ .ADMIN uid now db = .ok db2 ∧
        ∀ q ∈ db2.pickups, q.id = pid →
          q.completedAt = some t ∧ q.startedAt = p.startedAt) := by
  have hget := getPickupById_admin pid uid db p hp
  constructor
  · intro hs
    simp only [runUpdatePickupStatus, updatePickupStatus, hget]
    rw [if_neg (by simp [hs])]
    rw [if_neg (by simp)]
    refine ⟨_, rfl, fun q hq hid => ?_⟩
    have := eq_applyPickupWrite_of_mem db pid ⟨.IN_PROGRESS, nts, none, none⟩ p hp hnd q hq hid
    rw [this]
    exact ⟨hs, rfl⟩
  · intro ht
    simp only [runUpdatePickupStatus, updatePickupStatus, hget]
    rw [if_neg (by simp)]
    rw [if_neg (by simp [ht])]
    refine ⟨_, rfl, fun q hq hid => ?_⟩
    have := eq_applyPickupWrite_of_mem db pid ⟨.COMPLETED, nts, none, none⟩ p hp hnd q hq hid
    rw [this]
    exact ⟨ht, rfl⟩

/-- C9 witness: on the COMPLETED pickup 1 of `dbTerminal` (started at 5,
completed at 9), a repeated IN_PROGRESS update keeps the start time 5 and
the completion time 9, and a repeated COMPLETED update keeps both. -/
theorem c9_idempotent_timestamps_witness :
    ((pickupAt 1 10 .COMPLETED (some 5) (some 9)).startedAt = some 5 →
      ∃ db2, runUpdatePickupStatus 1 ⟨.IN_PROGRESS, none⟩ .ADMIN "a" 77 dbTerminal = .ok db2 ∧
        ∀ q ∈ db2.pickups, q.id = 1 →
          q.startedAt = some 5 ∧
            q.completedAt = (pickupAt 1 10 .COMPLETED (some 5) (some 9)).completedAt) ∧
    ((pickupAt 1 10 .COMPLETED (some 5) (some 9)).completedAt = some 9 →
      ∃ db2, runUpdatePickupStatus 1 ⟨.COMPLETED, none⟩ .ADMIN "a" 77 dbTerminal = .ok db2 ∧
        ∀ q ∈ db2.pickups, q.id = 1 →
          q.completedAt = some 9 ∧
            q.startedAt = (pickupAt 1 10 .COMPLETED (some 5) (some 9)).startedAt) :=
  c9_idempotent_timestamps 1 none "a" 77 5 9 dbTerminal
    (pickupAt 1 10 .COMPLETED (some 5) (some 9)) (by decide) (by decide)

/-- The closest-so-far scan of `findBestAvailableDriver`: its result splits
the candidate list around an element of minimal value, and every candidate
strictly before the split point has a strictly larger value (a strict
comparison keeps the first-seen candidate on ties). -/
theorem foldl_closest_spec (f : Driver → ℚ) (l : List Driver) (init : Driver) :
    ∃ l₁ l₂,
      init :: l = l₁ ++ (l.foldl (fun c x => if f x < f c then x else c) init) :: l₂ ∧
      (∀ y ∈ init :: l, f (l.foldl (fun c x => if f x < f c then x else c) init) ≤ f y) ∧
      (∀ y ∈ l₁, f (l.foldl (fun c x => if f x < f c then x else c) init) < f y) := by
  induction l generalizing init with
  | nil => exact ⟨[], [], rfl, by simp, by simp⟩
  | cons x xs ih =>
    by_cases h : f x < f init
    · have hstep : (x :: xs).foldl (fun c y => if f y < f c then y else c) init =
          xs.foldl (fun c y => if f y < f c then y else c) x := by
        rw [List.foldl_cons, if_pos h]
      obtain ⟨l₁, l₂, heq, hmin, hstrict⟩ := ih x
      refine ⟨init :: l₁, l₂, ?_, ?_, ?_⟩
      · rw [hstep, List.cons_append, ← heq]
      · intro y hy
        rw [hstep]
        rcases List.mem_cons.mp hy with rfl | hy2
        · exact le_of_lt (lt_of_le_of_lt (hmin x (List.mem_cons_self x xs)) h)
        · exact hmin y hy2
      · intro y hy
        rw [hstep]
        rcases List.mem_cons.mp hy with rfl | hy2
        · exact lt_of_le_of_lt (hmin x (List.mem_cons_self x xs)) h
        · exact hstrict y hy2
    · have hstep : (x :: xs).foldl (fun c y => if f y < f c then y else c) init =
          xs.foldl (fun c y => if f y < f c then y else c) init := by
        rw [List.foldl_cons, if_neg h]
      have hxi : f init ≤ f x := le_of_not_lt h
      obtain ⟨l₁, l₂, heq, hmin, hstrict⟩ := ih init
      cases l₁ with
      | nil =>
        simp only [List.nil_append, List.cons.injEq] at heq
        obtain ⟨h1, h2⟩ := heq
        refine ⟨[], x :: xs, ?_, ?_, by simp⟩
        · rw [hstep, List.nil_append, ← h1]
        · intro y hy
          rw [hstep]
          rcases List.mem_cons.mp hy with rfl | hy2
          · exact hmin y (List.mem_cons_self y xs)
          · rcases List.mem_cons.mp hy2 with rfl | hy3
            · exact le_trans (hmin init (List.mem_cons_self init xs)) hxi
            · exact hmin y (List.mem_cons_of_mem init hy3)
      | cons a l₁' =>
        simp only [List.cons_append, List.cons.injEq] at heq
        obtain ⟨h1, hxs⟩ := heq
        subst h1
        have hrinit : f (xs.foldl (fun c y => if f y < f c then y else c) init) < f init :=
          hstrict init (List.mem_cons_self init l₁')
        refine ⟨init :: x :: l₁', l₂, ?_, ?_, ?_⟩
        · rw [hstep]
          simp only [List.cons_append]
          rw [← hxs]
        · intro y hy
          rw [hstep]
          rcases List.mem_cons.mp hy with rfl | hy2
          · exact le_of_lt hrinit
          · rcases List.mem_cons.mp hy2 with rfl | hy3
            · exact le_of_lt (lt_of_lt_of_le hrinit hxi)
            · exact hmin y (List.mem_cons_of_mem init hy3)
        · intro y hy
          rw [hstep]
          rcases List.mem_cons.mp hy with rfl | hy2
          · exact hrinit
          · rcases List.mem_cons.mp hy2 with rfl | hy3
            · exact lt_of_lt_of_le hrinit hxi
            · exact hstrict y (List.mem_cons_of_mem init hy3)

/-- C8: the nearest-driver search considers exactly the drivers passing the
eligibility filter (ONLINE, available, active account, known location),
returns none — not an error — when that candidate set is empty, and
otherwise returns the id of a candidate of minimal distance, every strictly
earlier candidate being strictly farther (ties broken by first-seen). -/
theorem c8_nearest_driver (dist : GeoDistance) (drivers : List Driver)
    (binLat binLng : ℚ) :
    (findBestAvailableDriver dist drivers binLat binLng = none ↔
      drivers.filter eligibleDriver = []) ∧
    (∀ i, findBestAvailableDriver dist drivers binLat binLng = some i →
      ∃ l₁ d l₂, drivers.filter eligibleDriver = l₁ ++ d :: l₂ ∧ d.id = i ∧
        (∀ e ∈ drivers.filter eligibleDriver,
          driverDistance dist binLat binLng d ≤ driverDistance dist binLat binLng e) ∧
        (∀ e ∈ l₁,
          driverDistance dist binLat binLng d < driverDistance dist binLat binLng e)) := by
  unfold findBestAvailableDriver
  cases hf : drivers.filter eligibleDriver with
  | nil => simp
  | cons d rest =>
    constructor
    · simp
    · intro i hi
      simp only [Option.some.injEq] at hi
      obtain ⟨l₁, l₂, heq, hmin, hstrict⟩ :=
        foldl_closest_spec (driverDistance dist binLat binLng) rest d
      exact ⟨l₁, _, l₂, heq, hi, hmin, hstrict⟩

/-- C8 witness: among two eligible drivers (latitudes 5 and 1) and one
OFFLINE driver, the search returns driver 2, of minimal distance; with only
the OFFLINE driver present it returns none. -/
theorem c8_nearest_driver_witness :
    findBestAvailableDriver distLat driversNear 0 0 = some 2 ∧
    (∃ l₁ d l₂, driversNear.filter eligibleDriver = l₁ ++ d :: l₂ ∧ d.id = 2 ∧
      (∀ e ∈ driversNear.filter eligibleDriver,
        driverDistance distLat 0 0 d ≤ driverDistance distLat 0 0 e) ∧
      (∀ e ∈ l₁, driverDistance distLat 0 0 d < driverDistance distLat 0 0 e)) ∧
    findBestAvailableDriver distLat [drvW 3 .OFFLINE true 0 0] 0 0 = none :=
  ⟨by decide, (c8_nearest_driver distLat driversNear 0 0).2 2 (by decide),
    (c8_nearest_driver distLat [drvW 3 .OFFLINE true 0 0] 0 0).1.mpr (by decide)⟩

/-- One selection step returns a permutation: the winner consed onto the
remainder is a permutation of the candidates. -/
theorem selectNearest_perm (dist : GeoDistance) (lat lng : ℚ) (x : StopPoint)
    (l : List StopPoint) :
    ((selectNearest dist lat lng x l).1 :: (selectNearest dist lat lng x l).2).Perm
      (x :: l) := by
  induction l generalizing x with
  | nil => simp [selectNearest]
  | cons y ys ih =>
    by_cases h : stopDistance dist lat lng y < stopDistance dist lat lng x
    · simp only [selectNearest, if_pos h]
      exact (List.Perm.swap x _ _).trans ((ih y).cons x)
    · simp only [selectNearest, if_neg h]
      exact ((List.Perm.swap y _ _).trans ((ih x).cons y)).trans (List.Perm.swap x y ys)

/-- One selection step returns a candidate of minimal distance from the
current position. -/
theorem selectNearest_min (dist : GeoDistance) (lat lng : ℚ) (x : StopPoint)
    (l : List StopPoint) :
    ∀ y ∈ x :: l, stopDistance dist lat lng (selectNearest dist lat lng x l).1 ≤
      stopDistance dist lat lng y := by
  induction l generalizing x with
  | nil =>
    intro y hy
    simp only [selectNearest]
    rcases List.mem_cons.mp hy with rfl | hy2
    · exact le_refl _
    · cases hy2
  | cons z zs ih =>
    intro y hy
    by_cases h : stopDistance dist lat lng z < stopDistance dist lat lng x
    · simp only [selectNearest, if_pos h]
      rcases List.mem_cons.mp hy with rfl | hy2
      · exact le_of_lt (lt_of_le_of_lt (ih z z (List.mem_cons_self z zs)) h)
      · exact ih z y hy2
    · simp only [selectNearest, if_neg h]
      rcases List.mem_cons.mp hy with rfl | hy2
      · exact ih y y (List.mem_cons_self y zs)
      · rcases List.mem_cons.mp hy2 with rfl | hy3
        · exact le_trans (ih x x (List.mem_cons_self x zs)) (le_of_not_lt h)
        · exact ih x y (List.mem_cons_of_mem x hy3)

/-- The remainder of one selection step has the length of the input tail. -/
theorem selectNearest_length (dist : GeoDistance) (lat lng : ℚ) (x : StopPoint)
    (l : List StopPoint) :
    (selectNearest dist lat lng x l).2.length = l.length := by
  have h := (selectNearest_perm dist lat lng x l).length_eq
  simpa using h

/-- With enough fuel (one unit per stop), the nearest-neighbor loop returns
a permutation of its input: no stop dropped, none duplicated. -/
theorem nnLoop_perm (dist : GeoDistance) :
    ∀ (n : Nat) (lat lng : ℚ) (l : List StopPoint), l.length ≤ n →
      (nnLoop dist n lat lng l).Perm l := by
  intro n
  induction n with
  | zero =>
    intro lat lng l hl
    rw [List.length_eq_zero.mp (Nat.le_zero.mp hl)]
    exact List.Perm.refl _
  | succ n ih =>
    intro lat lng l hl
    cases l with
    | nil => exact List.Perm.refl _
    | cons x xs =>
      simp only [nnLoop]
      have hlen : (selectNearest dist lat lng x xs).2.length ≤ n := by
        rw [selectNearest_length]
        exact Nat.le_of_succ_le_succ (by simpa using hl)
      exact ((ih _ _ _ hlen).cons _).trans (selectNearest_perm dist lat lng x xs)

/-- With enough fuel, the nearest-neighbor loop output obeys the
nearest-neighbor rule: each successive stop is an unvisited stop of minimum
distance from the current position. -/
theorem nnLoop_nnOrder (dist : GeoDistance) :
    ∀ (n : Nat) (lat lng : ℚ) (l : List StopPoint), l.length ≤ n →
      IsNNOrder dist lat lng (nnLoop dist n lat lng l) := by
  intro n
  induction n with
  | zero =>
    intro lat lng l hl
    rw [List.length_eq_zero.mp (Nat.le_zero.mp hl)]
    trivial
  | succ n ih =>
    intro lat lng l hl
    cases l with
    | nil => trivial
    | cons x xs =>
      simp only [nnLoop, IsNNOrder]
      have hlen : (selectNearest dist lat lng x xs).2.length ≤ n := by
        rw [selectNearest_length]
        exact Nat.le_of_succ_le_succ (by simpa using hl)
      refine ⟨?_, ih _ _ _ hlen⟩
      intro y hy
      rcases List.mem_cons.mp hy with rfl | hy2
      · exact le_refl _
      · have hy3 : y ∈ (selectNearest dist lat lng x xs).2 :=
          (nnLoop_perm dist n _ _ _ hlen).mem_iff.mp hy2
        have hy4 : y ∈ x :: xs :=
          (selectNearest_perm dist lat lng x xs).mem_iff.mp (List.mem_cons_of_mem _ hy3)
        exact selectNearest_min dist lat lng x xs y hy4

/-- The fallback total distance is the sum of the consecutive legs. -/
theorem routeDistance_eq_legs (dist : GeoDistance) :
    ∀ (lat lng : ℚ) (l : List StopPoint),
      routeDistance dist lat lng l = (legDistances dist lat lng l).sum := by
  intro lat lng l
  induction l generalizing lat lng with
  | nil => rfl
  | cons x xs ih => simp [routeDistance, legDistances, ih]

/-- With a pointwise nonnegative distance function, the fallback total
distance is nonnegative. -/
theorem routeDistance_nonneg (dist : GeoDistance)
    (hd : ∀ a b c e : ℚ, 0 ≤ dist a b c e) :
    ∀ (lat lng : ℚ) (l : List StopPoint), 0 ≤ routeDistance dist lat lng l := by
  intro lat lng l
  induction l generalizing lat lng with
  | nil => exact le_refl 0
  | cons x xs ih => exact add_nonneg (hd _ _ _ _) (ih _ _)

/-- C4: for every nonempty stop list and start position, the fallback
nearest-neighbor optimizer terminates on a permutation of exactly the input
stops, ordered by the nearest-neighbor rule; the total distance it computes
is the sum of the consecutive legs and is nonnegative whenever the distance
function is pointwise nonnegative (as the haversine is). -/
theorem c4_fallback_optimizer (dist : GeoDistance) (lat lng : ℚ)
    (pickups : List StopPoint) (hd : ∀ a b c e : ℚ, 0 ≤ dist a b c e)
    (hne : pickups ≠ []) :
    (nearestNeighborOptimization dist lat lng pickups).Perm pickups ∧
    IsNNOrder dist lat lng (nearestNeighborOptimization dist lat lng pickups) ∧
    routeDistance dist lat lng (nearestNeighborOptimization dist lat lng pickups) =
      (legDistances dist lat lng (nearestNeighborOptimization dist lat lng pickups)).sum ∧
    0 ≤ routeDistance dist lat lng (nearestNeighborOptimization dist lat lng pickups) :=
  ⟨nnLoop_perm dist pickups.length lat lng pickups (le_refl _),
    nnLoop_nnOrder dist pickups.length lat lng pickups (le_refl _),
    routeDistance_eq_legs dist lat lng _,
    routeDistance_nonneg dist hd lat lng _⟩

/-- C4 witness: three concrete stops from the Freetown start coordinates
under a concrete nonnegative distance function. -/
theorem c4_fallback_optimizer_witness :
    (nearestNeighborOptimization distAbs 8.4840 (-13.2299)
        [⟨1, 1, 9, -13⟩, ⟨2, 2, 8, -14⟩, ⟨3, 3, 10, -12⟩]).Perm
      [⟨1, 1, 9, -13⟩, ⟨2, 2, 8, -14⟩, ⟨3, 3, 10, -12⟩] ∧
    IsNNOrder distAbs 8.4840 (-13.2299)
      (nearestNeighborOptimization distAbs 8.4840 (-13.2299)
        [⟨1, 1, 9, -13⟩, ⟨2, 2, 8, -14⟩, ⟨3, 3, 10, -12⟩]) ∧
    routeDistance distAbs 8.4840 (-13.2299)
        (nearestNeighborOptimization distAbs 8.4840 (-13.2299)
          [⟨1, 1, 9, -13⟩, ⟨2, 2, 8, -14⟩, ⟨3, 3, 10, -12⟩]) =
      (legDistances distAbs 8.4840 (-13.2299)
        (nearestNeighborOptimization distAbs 8.4840 (-13.2299)
          [⟨1, 1, 9, -13⟩, ⟨2, 2, 8, -14⟩, ⟨3, 3, 10, -12⟩])).sum ∧
    0 ≤ routeDistance distAbs 8.4840 (-13.2299)
        (nearestNeighborOptimization distAbs 8.4840 (-13.2299)
          [⟨1, 1, 9, -13⟩, ⟨2, 2, 8, -14⟩, ⟨3, 3, 10, -12⟩]) :=
  c4_fallback_optimizer distAbs 8.4840 (-13.2299)
    [⟨1, 1, 9, -13⟩, ⟨2, 2, 8, -14⟩, ⟨3, 3, 10, -12⟩]
    (fun a b c e => add_nonneg (abs_nonneg _) (abs_nonneg _))
    (by decide)

/-- In a bin list with distinct ids, looking a member bin up by its own id
finds that bin. -/
theorem find?_id_of_nodup :
    ∀ (l : List Bin), (l.map Bin.id).Nodup →
      ∀ b ∈ l, l.find? (fun x => x.id == b.id) = some b := by
  intro l
  induction l with
  | nil => intro _ b hb; cases hb
  | cons a l' ih =>
    intro hnd b hb
    rw [List.map_cons] at hnd
    have hnd2 := List.nodup_cons.mp hnd
    rcases List.mem_cons.mp hb with rfl | hb2
    · rw [List.find?_cons_of_pos _ (by simp)]
    · have hane : a.id ≠ b.id := by
        intro he
        exact hnd2.1 (he ▸ List.mem_map_of_mem Bin.id hb2)
      rw [List.find?_cons_of_neg _ (by simp [hane])]
      exact ih hnd2.2 b hb2

/-- A pointwise relation between two lists gives, for each member of the
first, a related member of the second. -/
theorem forall₂_exists_right {α β : Type _} {R : α → β → Prop} :
    ∀ {l₁ : List α} {l₂ : List β}, List.Forall₂ R l₁ l₂ →
      ∀ a ∈ l₁, ∃ b ∈ l₂, R a b := by
  intro l₁ l₂ h
  induction h with
  | nil => intro a ha; cases ha
  | cons hr _ ih =>
    intro a ha
    rcases List.mem_cons.mp ha with rfl | ha2
    · exact ⟨_, List.mem_cons_self _ _, hr⟩
    · obtain ⟨b, hb, hab⟩ := ih a ha2
      exact ⟨b, List.mem_cons_of_mem _ hb, hab⟩

/-- One scheduler step: when the bin found under the request id is the bin
itself, `createPickup` with the scheduler request succeeds, appends exactly
one pickup, and that pickup is SCHEDULED for this bin with the
automatic-origin notes and priority URGENT at fill 95 and above, HIGH
otherwise. -/
theorem auto_step (dist : GeoDistance) (now : Int) (db : DB) (b : Bin)
    (hb : db.bins.find? (fun x => x.id == b.id) = some b) :
    ∃ pk : Pickup,
      createPickup dist (autoReq b) .ADMIN (b.userId.getD "system") now db =
        .ok ({ db with pickups := db.pickups ++ [pk]
                       nextPickupId := db.nextPickupId + 1 }, pk) ∧
      pk.binId = b.id ∧ pk.status = .SCHEDULED ∧
      pk.priority = (if 95 ≤ b.currentLevel then Priority.URGENT else Priority.HIGH) ∧
      pk.notes = some (autoNote b.currentLevel) := by
  have hpr : (if 95 ≤ b.currentLevel then Priority.URGENT
      else if 85 ≤ b.currentLevel then Priority.HIGH
      else schedulerPriority b.currentLevel) =
      (if 95 ≤ b.currentLevel then Priority.URGENT else Priority.HIGH) := by
    simp only [schedulerPriority]
    split_ifs <;> rfl
  refine ⟨{ id := db.nextPickupId, binId := b.id
            driverId := if 80 ≤ b.currentLevel then
                findBestAvailableDriver dist db.drivers b.latitude b.longitude
              else none
            createdById := b.userId.getD "system", status := .SCHEDULED
            priority := if 95 ≤ b.currentLevel then .URGENT else .HIGH
            scheduledAt := calculateScheduledTime now
              (if 95 ≤ b.currentLevel then .URGENT else .HIGH)
            startedAt := none, completedAt := none
            notes := some (autoNote b.currentLevel) }, ?_, rfl, rfl, ?_, rfl⟩
  · simp only [createPickup, autoReq, hb, Option.getD_some]
    rw [hpr]
    rfl
  · rfl

/-- The auto-create fold over a list of bins that the store resolves to
themselves: it appends one pickup per bin, in order, each SCHEDULED with
the automatic notes and the URGENT/HIGH priority rule, and touches nothing
else in the store. -/
theorem autoFold_spec (dist : GeoDistance) (now : Int) :
    ∀ (bs : List Bin) (acc : DB),
      (∀ b ∈ bs, acc.bins.find? (fun x => x.id == b.id) = some b) →
      ∃ newPs : List Pickup,
        bs.foldl
          (fun acc bin =>
            match createPickup dist (autoReq bin) .ADMIN (bin.userId.getD "system") now acc with
            | .ok (db2, _) => db2
            | .error _ => acc) acc =
          { acc with pickups := acc.pickups ++ newPs
                     nextPickupId := acc.nextPickupId + newPs.length } ∧
        List.Forall₂ (fun (b : Bin) (p : Pickup) =>
          p.binId = b.id ∧ p.status = .SCHEDULED ∧
          p.priority = (if 95 ≤ b.currentLevel then Priority.URGENT else Priority.HIGH) ∧
          p.notes = some (autoNote b.currentLevel)) bs newPs := by
  intro bs
  induction bs with
  | nil =>
    intro acc _
    refine ⟨[], ?_, List.Forall₂.nil⟩
    cases acc
    simp
  | cons b bs' ih =>
    intro acc hbs
    obtain ⟨pk, hok, hpk⟩ := auto_step dist now acc b (hbs b (List.mem_cons_self b bs'))
    have hbs' : ∀ c ∈ bs',
        ({ acc with pickups := acc.pickups ++ [pk]
                    nextPickupId := acc.nextPickupId + 1 } : DB).bins.find?
          (fun x => x.id == c.id) = some c := by
      intro c hc
      exact hbs c (List.mem_cons_of_mem b hc)
    obtain ⟨newPs', heq', hfa'⟩ := ih _ hbs'
    refine ⟨pk :: newPs', ?_, List.Forall₂.cons hpk hfa'⟩
    rw [List.foldl_cons, hok]
    rw [heq']
    simp only [List.append_assoc, List.singleton_append, List.length_cons]
    congr 1
    omega

/-- C3 (amended): one auto-create pass creates exactly one new pickup per
active container at fill level 80 or above with no non-terminal pickup —
SCHEDULED, with automatic-origin notes, priority URGENT at 95 and above and
HIGH otherwise (not the MEDIUM default of section 4.1: the scheduler
supplies HIGH explicitly) — creates nothing for other containers, and a
second pass over the resulting store is a no-op, so two successive passes
create at most one pickup per container. -/
theorem c3_auto_create_amended (dist : GeoDistance) (now : Int) (db : DB)
    (hids : (db.bins.map Bin.id).Nodup) :
    ∃ newPs : List Pickup,
      checkAndCreateAutomaticPickups dist now db =
        { db with pickups := db.pickups ++ newPs
                  nextPickupId := db.nextPickupId + newPs.length } ∧
      List.Forall₂ (fun (b : Bin) (p : Pickup) =>
        p.binId = b.id ∧ p.status = .SCHEDULED ∧
        p.priority = (if 95 ≤ b.currentLevel then Priority.URGENT else Priority.HIGH) ∧
        p.notes = some (autoNote b.currentLevel))
        (db.bins.filter (binNeedsPickup db)) newPs ∧
      checkAndCreateAutomaticPickups dist now (checkAndCreateAutomaticPickups dist now db) =
        checkAndCreateAutomaticPickups dist now db := by
  obtain ⟨newPs, heq, hfa⟩ := autoFold_spec dist now (db.bins.filter (binNeedsPickup db)) db
    (fun b hb => find?_id_of_nodup db.bins hids b (List.mem_filter.mp hb).1)
  have hpass : checkAndCreateAutomaticPickups dist now db =
      { db with pickups := db.pickups ++ newPs
                nextPickupId := db.nextPickupId + newPs.length } := heq
  refine ⟨newPs, hpass, hfa, ?_⟩
  set db1 := checkAndCreateAutomaticPickups dist now db with hdb1
  have hbins1 : db1.bins = db.bins := by rw [hpass]
  have hpk1 : db1.pickups = db.pickups ++ newPs := by rw [hpass]
  have hsub : ∀ bid, hasActivePickup db bid = true → hasActivePickup db1 bid = true := by
    intro bid h
    simp only [hasActivePickup, hpk1, List.any_append]
    simp only [hasActivePickup] at h
    rw [h, Bool.true_or]
  have hrev : ∀ b, binNeedsPickup db1 b = true → binNeedsPickup db b = true := by
    intro b h
    simp only [binNeedsPickup, Bool.and_eq_true, Bool.not_eq_true'] at h ⊢
    refine ⟨h.1, ?_⟩
    cases hc : hasActivePickup db b.id with
    | false => rfl
    | true => rw [hsub b.id hc] at h; exact h.2
  have hnone : ∀ b ∈ db.bins, ¬(binNeedsPickup db1 b = true) := by
    intro b hbmem hb1
    have hbf : b ∈ db.bins.filter (binNeedsPickup db) :=
      List.mem_filter.mpr ⟨hbmem, hrev b hb1⟩
    obtain ⟨p, hpmem, hpb, hps, _, _⟩ := forall₂_exists_right hfa b hbf
    have hact : hasActivePickup db1 b.id = true := by
      simp only [hasActivePickup, List.any_eq_true]
      refine ⟨p, ?_, ?_⟩
      · rw [hpk1]; exact List.mem_append_right _ hpmem
      · simp [hpb, hps]
    simp only [binNeedsPickup, Bool.and_eq_true, Bool.not_eq_true'] at hb1
    rw [hb1.2] at hact
    cases hact
  have hfilter : db1.bins.filter (binNeedsPickup db1) = [] := by
    rw [hbins1]
    exact List.filter_eq_nil_iff.mpr hnone
  show checkAndCreateAutomaticPickups dist now db1 = db1
  unfold checkAndCreateAutomaticPickups
  rw [hfilter]
  rfl

/-- C3 witness: on a store whose bins at 80 and 96 qualify, whose bin at 50
is below threshold, and whose bin at 90 already has a SCHEDULED pickup, the
pass appends one pickup per qualifying bin (HIGH and URGENT), and a second
pass changes nothing. -/
theorem c3_auto_create_amended_witness :
    ∃ newPs : List Pickup,
      checkAndCreateAutomaticPickups distZero 5 dbScheduler =
        { dbScheduler with pickups := dbScheduler.pickups ++ newPs
                           nextPickupId := dbScheduler.nextPickupId + newPs.length } ∧
      List.Forall₂ (fun (b : Bin) (p : Pickup) =>
        p.binId = b.id ∧ p.status = .SCHEDULED ∧
        p.priority = (if 95 ≤ b.currentLevel then Priority.URGENT else Priority.HIGH) ∧
        p.notes = some (autoNote b.currentLevel))
        (dbScheduler.bins.filter (binNeedsPickup dbScheduler)) newPs ∧
      checkAndCreateAutomaticPickups distZero 5 (checkAndCreateAutomaticPickups distZero 5 dbScheduler) =
        checkAndCreateAutomaticPickups distZero 5 dbScheduler :=
  c3_auto_create_amended distZero 5 dbScheduler (by decide)

/-- C3 counterexample: a container at fill level exactly 80 gets an
automatic pickup with priority HIGH, not the MEDIUM default the claim
derives from section 4.1 (the scheduler passes HIGH as the requested
priority for every bin below 95). -/
theorem c3_priority_counterexample :
    (checkAndCreateAutomaticPickups distZero 0 dbC3).pickups.map
        (fun p => (p.binId, p.priority)) = [(1, Priority.HIGH)] ∧
    Priority.HIGH ≠ Priority.MEDIUM := by decide

/-- A value whose two-decimal rounding is below a bound is itself below the
bound plus half of the last rounded digit (1/200). -/
theorem le_add_of_round2_le {x r : ℚ} (h : round2 x ≤ r) : x ≤ r + 1 / 200 := by
  unfold round2 at h
  rw [round_eq] at h
  have h2 := Int.sub_one_lt_floor (x * 100 + 1 / 2)
  linarith

/-- An insertion sort on a rational key is sorted (pairwise ascending) on
that key. -/
theorem pairwise_insertionSort_le {α : Type _} (f : α → ℚ) (l : List α) :
    (l.insertionSort (fun a b => f a ≤ f b)).Pairwise (fun a b => f a ≤ f b) := by
  haveI : IsTotal α (fun a b => f a ≤ f b) := ⟨fun a b => le_total (f a) (f b)⟩
  haveI : IsTrans α (fun a b => f a ≤ f b) := ⟨fun a b c => le_trans⟩
  exact List.sorted_insertionSort (fun a b => f a ≤ f b) l

/-- C7 (amended): every driver returned by the within-radius query passes
the eligibility filters (available, active account, the requested status or
ONLINE by default, known location); the distance paired with each result is
the computed distance rounded to two decimals and is at most the radius, so
the unrounded distance is at most radius + 1/200 km; the results are sorted
ascending on the rounded distance; and at most `limit` results are
returned. -/
theorem c7_radius_query_amended (dist : GeoDistance) (cosLat : ℚ)
    (q : NearbyDriversQuery) (drivers : List Driver) :
    (∀ x ∈ getNearbyDrivers dist cosLat q drivers,
        x.1.isAvailable = true ∧ x.1.userIsActive = true ∧
        x.1.status = q.status.getD .ONLINE ∧
        x.1.currentLatitude.isSome = true ∧ x.1.currentLongitude.isSome = true ∧
        x.2 = round2 (dist q.latitude q.longitude
          (x.1.currentLatitude.getD 0) (x.1.currentLongitude.getD 0)) ∧
        x.2 ≤ q.radius.getD 10 ∧
        dist q.latitude q.longitude
            (x.1.currentLatitude.getD 0) (x.1.currentLongitude.getD 0) ≤
          q.radius.getD 10 + 1 / 200) ∧
    List.Pairwise (fun a b : Driver × ℚ => a.2 ≤ b.2)
      (getNearbyDrivers dist cosLat q drivers) ∧
    (getNearbyDrivers dist cosLat q drivers).length ≤ q.limit.getD 20 := by
  simp only [getNearbyDrivers]
  refine ⟨?_, ?_, ?_⟩
  · intro x hx
    rw [(List.perm_insertionSort _ _).mem_iff, List.mem_filter] at hx
    obtain ⟨hx1, hx2⟩ := hx
    rw [List.mem_map] at hx1
    obtain ⟨d, hd, rfl⟩ := hx1
    rw [List.mem_filter] at hd
    obtain ⟨hd1, _⟩ := hd
    have hd3 := List.mem_of_mem_take hd1
    rw [List.mem_filter] at hd3
    obtain ⟨_, hd5⟩ := hd3
    simp only [Bool.and_eq_true] at hd5
    obtain ⟨⟨⟨⟨havail, hactive⟩, hstat⟩, hlat⟩, hlng⟩ := hd5
    have hlatSome : d.currentLatitude.isSome = true := by
      cases hla : d.currentLatitude with
      | none => rw [hla] at hlat; cases hlat
      | some la => rfl
    have hlngSome : d.currentLongitude.isSome = true := by
      cases hlo : d.currentLongitude with
      | none => rw [hlo] at hlng; cases hlng
      | some lo => rfl
    have hle : round2 (dist q.latitude q.longitude
        (d.currentLatitude.getD 0) (d.currentLongitude.getD 0)) ≤ q.radius.getD 10 :=
      of_decide_eq_true hx2
    exact ⟨havail, hactive, beq_iff_eq.mp hstat, hlatSome, hlngSome, rfl, hle,
      le_add_of_round2_le hle⟩
  · exact pairwise_insertionSort_le (fun x : Driver × ℚ => x.2) _
  · refine le_trans (le_of_eq (List.perm_insertionSort _ _).length_eq) ?_
    refine le_trans (List.length_filter_le _ _) ?_
    rw [List.length_map]
    refine le_trans (List.length_filter_le _ _) ?_
    rw [List.length_take]
    exact min_le_left _ _

/-- C7 witness: a single ONLINE driver at the origin under a concrete
distance function; the returned rounded distance is within the default
10 km radius, the unrounded distance within 10 + 1/200, and the result list
within the default limit. -/
theorem c7_radius_query_amended_witness :
    (drvW 1 .ONLINE true 0 0, round2 (distAbs 0 0 0 0)).2 ≤ q7.radius.getD 10 ∧
    distAbs q7.latitude q7.longitude
        ((drvW 1 .ONLINE true 0 0).currentLatitude.getD 0)
        ((drvW 1 .ONLINE true 0 0).currentLongitude.getD 0) ≤
      q7.radius.getD 10 + 1 / 200 ∧
    (getNearbyDrivers distAbs 1 q7 [drvW 1 .ONLINE true 0 0]).length ≤ q7.limit.getD 20 := by
  have h := c7_radius_query_amended distAbs 1 q7 [drvW 1 .ONLINE true 0 0]
  have hmem : (drvW 1 .ONLINE true 0 0, round2 (distAbs 0 0 0 0)) ∈
      getNearbyDrivers distAbs 1 q7 [drvW 1 .ONLINE true 0 0] :=
    of_decide_eq_true (by with_unfolding_all rfl)
  have h1 := h.1 _ hmem
  exact ⟨h1.2.2.2.2.2.2.1, h1.2.2.2.2.2.2.2, h.2.2⟩

/-- C7 counterexample: with the computed distance equal to 10.004 km
(2501/250), the two-decimal rounding yields 10.00, so the driver passes the
radius filter and is returned although the unrounded distance exceeds the
10 km radius — the claim that every returned driver is within the radius
fails by up to 0.005 km. -/
theorem c7_radius_counterexample :
    getNearbyDrivers dist7cex 1 q7 [drvW 9 .ONLINE true 0 0] =
      [(drvW 9 .ONLINE true 0 0, 10)] ∧
    dist7cex q7.latitude q7.longitude
        ((drvW 9 .ONLINE true 0 0).currentLatitude.getD 0)
        ((drvW 9 .ONLINE true 0 0).currentLongitude.getD 0) = 2501 / 250 ∧
    q7.radius.getD 10 < 2501 / 250 := by
  refine ⟨by with_unfolding_all rfl, rfl, of_decide_eq_true (by with_unfolding_all rfl)⟩

/-- C10: after a successful route optimization (modelled on the fallback
path; the closing bulk reassignment is identical on both paths), the store
keeps the same pickups, every pickup whose id was requested — including
those that did not resolve to a SCHEDULED pickup and so appear in no route
stop — has its driver reference set to the given driver and no other field
changed, every pickup not requested is untouched, and every returned route
stop corresponds to a requested pickup that was SCHEDULED. -/
theorem c10_bulk_reassignment (dist : GeoDistance) (data : RouteOptRequest)
    (now : Int) (db db2 : DB) (res : OptimizedRouteResult)
    (hok : optimizePickupRoute dist data now db = .ok (db2, res)) :
    db2.pickups.length = db.pickups.length ∧
    (∀ p ∈ db.pickups, p.id ∈ data.pickupIds →
      { p with driverId := some data.driverId } ∈ db2.pickups) ∧
    (∀ p ∈ db.pickups, p.id ∉ data.pickupIds → p ∈ db2.pickups) ∧
    (∀ s ∈ res.stops, ∃ p ∈ db.pickups,
      p.id = s.pickupId ∧ p.status = .SCHEDULED ∧ p.id ∈ data.pickupIds) := by
  cases hfind : db.drivers.find? (fun d => d.id == data.driverId) with
  | none =>
    simp only [optimizePickupRoute, hfind] at hok
    exact (Except.noConfusion hok)
  | some driver =>
    simp only [optimizePickupRoute, hfind] at hok
    by_cases hemp : (db.pickups.filter fun p =>
        data.pickupIds.contains p.id && p.status == .SCHEDULED).isEmpty = true
    · rw [if_pos hemp] at hok
      exact (Except.noConfusion hok)
    · rw [if_neg hemp] at hok
      simp only [Except.ok.injEq, Prod.mk.injEq] at hok
      obtain ⟨hdb2, hres⟩ := hok
      subst hdb2
      subst hres
      refine ⟨List.length_map _ _, ?_, ?_, ?_⟩
      · intro p hp hin
        have hc : data.pickupIds.contains p.id = true := List.elem_iff.mpr hin
        simp only [List.mem_map]
        exact ⟨p, hp, by rw [if_pos hc]⟩
      · intro p hp hnin
        have hc : ¬(data.pickupIds.contains p.id = true) := fun hcc =>
          hnin (List.elem_iff.mp hcc)
        simp only [List.mem_map]
        exact ⟨p, hp, by rw [if_neg hc]⟩
      · intro s hs
        simp only [List.mem_map] at hs
        obtain ⟨e, he, rfl⟩ := hs
        have h1 := List.mem_enum_iff_get?.mp he
        have h2 := List.get?_mem h1
        have h3 := (List.of_mem_zip h2).1
        have h4 : e.2.1 ∈ (db.pickups.filter fun p =>
            data.pickupIds.contains p.id && p.status == .SCHEDULED).filterMap
              (fun p => (db.bins.find? (fun b => b.id == p.binId)).map
                (fun b => StopPoint.mk p.id b.id b.latitude b.longitude)) := by
          refine ((nnLoop_perm dist _ _ _ _ (le_refl _)).mem_iff.mp h3)
        rw [List.mem_filterMap] at h4
        obtain ⟨p, hpf, hj⟩ := h4
        rw [List.mem_filter] at hpf
        obtain ⟨hp, hpred⟩ := hpf
        simp only [Bool.and_eq_true] at hpred
        obtain ⟨hcont, hsched⟩ := hpred
        obtain ⟨b, _, hb2⟩ := Option.map_eq_some'.mp hj
        refine ⟨p, hp, ?_, beq_iff_eq.mp hsched, List.elem_iff.mp hcont⟩
        rw [← hb2]

/-- C10 witness: optimizing for driver 5 with requested ids 1 and 2 sets
the driver reference on pickup 1 (SCHEDULED, in the route) and on pickup 2
(CANCELLED, in no route stop) while leaving the unrequested pickup 3
untouched, all other fields unchanged. -/
theorem c10_bulk_reassignment_witness :
    ∃ db2 res, optimizePickupRoute distZero reqC10 3 dbC10 = .ok (db2, res) ∧
      { pickupAt 1 1 .SCHEDULED none none with driverId := some 5 } ∈ db2.pickups ∧
      { pickupAt 2 2 .CANCELLED none none with driverId := some 5 } ∈ db2.pickups ∧
      pickupAt 3 1 .SCHEDULED none none ∈ db2.pickups := by
  cases hE : optimizePickupRoute distZero reqC10 3 dbC10 with
  | error e =>
    have hne : isOkE (optimizePickupRoute distZero reqC10 3 dbC10) = true := by
      with_unfolding_all rfl
    rw [hE] at hne
    exact absurd hne (by simp [isOkE])
  | ok pr =>
    obtain ⟨db2, res⟩ := pr
    have h := c10_bulk_reassignment distZero reqC10 3 dbC10 db2 res hE
    refine ⟨db2, res, rfl, ?_, ?_, ?_⟩
    · exact h.2.1 (pickupAt 1 1 .SCHEDULED none none) (by decide) (by decide)
    · exact h.2.1 (pickupAt 2 2 .CANCELLED none none) (by decide) (by decide)
    · exact h.2.2.1 (pickupAt 3 1 .SCHEDULED none none) (by decide) (by decide)

end SmartWaste
